import Mathlib

/-!
Verification of the scoring engine of `repo_analyzer` (scoring_system.py).

The scoring engine is embedded shallowly:

* JSON documents produced by `json.load` are modelled by the inductive
  type `Json` (rationals stand for Python floats/ints; all arithmetic in
  the engine is exact on the values the configuration feeds it).
* The evidence-pack directory is a partial map from relative path to
  `FileContent`; a file that exists but fails `json.load` is
  `FileContent.malformed`.
* `datetime.now(timezone.utc)` is an explicit parameter `now : ℤ` (UTC
  seconds); ISO-8601 timestamp parsing is abstracted to reading a decimal
  integer, so "parses" / "fails to parse" is decided by `parseDate`.
* Python functions that can raise an exception which a caller catches are
  modelled with `Option` results (`none` = an exception was raised).
* Dictionary reads with a constant default (`d.get(k, default)`) are
  modelled either by `Option.getD` or by typed structure fields holding
  the defaulted value, as noted at each definition.
-/

namespace RepoAnalyzer

/-- JSON-like values, as produced by `json.load`. Numbers are modelled by
rationals. -/
inductive Json where
  | null
  | bool (b : Bool)
  | num (q : ℚ)
  | str (s : String)
  | arr (elems : List Json)
  | obj (fields : List (String × Json))

instance : Inhabited Json := ⟨Json.null⟩

/-- Association-list lookup, modelling Python `dict` access for JSON
objects (keys are assumed distinct, as `json.load` produces). -/
def alookup {α : Type} : List (String × α) → String → Option α
  | [], _ => none
  | (k0, v) :: rest, k => if k0 = k then some v else alookup rest k

/-- Python truthiness (`if x:`) of a JSON value. -/
def jsonTruthy : Json → Bool
  | .null => false
  | .bool b => b
  | .num q => if q = 0 then false else true
  | .str s => if s = "" then false else true
  | .arr es => match es with | [] => false | _ :: _ => true
  | .obj kvs => match kvs with | [] => false | _ :: _ => true

/-- Containment test on a list of characters: does `needle` occur as a
contiguous run inside `hay`? Models Python `needle in hay` for strings. -/
def charSub : List Char → List Char → Bool
  | _, [] => true
  | [], _ :: _ => false
  | x :: xs, n => (n.isPrefixOf (x :: xs)) || charSub xs n

/-- Python `needle in hay` on strings. -/
def strContains (hay needle : String) : Bool := charSub hay.data needle.data

/-- Python `str.lower()` (ASCII as used by the engine). -/
def lowerStr (s : String) : String := String.mk (s.data.map Char.toLower)

/-- Helper for `splitDot`. -/
def splitDotAux : List Char → List Char → List (List Char)
  | [], acc => [acc.reverse]
  | c :: cs, acc =>
      if c = '.' then acc.reverse :: splitDotAux cs [] else splitDotAux cs (c :: acc)

/-- Python `s.split(".")`. -/
def splitDot (s : String) : List String := (splitDotAux s.data []).map String.mk

/-- Decimal digits to a natural number; `none` when empty or a non-digit
occurs. -/
def digitsVal (cs : List Char) : Option ℕ :=
  match cs with
  | [] => none
  | _ :: _ =>
      cs.foldl
        (fun acc c =>
          match acc with
          | none => none
          | some n => if c.isDigit then some (n * 10 + (c.toNat - 48)) else none)
        (some 0)

/-- Models `_parse_commit_date` (scoring_system.py 445-455) and the inline
`datetime.fromisoformat` uses: ISO-8601 parsing is abstracted to reading a
(possibly negative) decimal integer UTC timestamp in seconds; any other
string models a malformed date (the Python code returns `None` / raises,
which every caller handles). An empty string is also a parse failure,
matching `if not date_str: return None`. -/
def parseDate (s : String) : Option ℤ :=
  match s.data with
  | '-' :: rest => (digitsVal rest).map (fun n => -(n : ℤ))
  | cs => (digitsVal cs).map (fun n => (n : ℤ))

/-- The content of one evidence file: either valid JSON or data on which
`json.load` raises. -/
inductive FileContent where
  | malformed
  | json (j : Json)

/-- The read-only ambient state of a `ScoringSystem` instance:
the evidence-pack directory (`fs`, keyed by relative path), and the typed
values the engine reads from `stack_info` / `repo_facts` / `metrics`
(each a `dict.get` with a constant default, baked into the field). For
the ADR check, `repoRootDirExists d` models
`(evidence_pack_path.parent / d).exists()`. -/
structure Env where
  fs : String → Option FileContent
  frameworks : List String
  has_typescript : Bool
  repoFactsName : String
  metricsFiles : ℚ
  repoRootDirExists : String → Bool

/-- Dictionary-key equality used for the author tallies. Author emails are
scalar JSON values in practice; a list- or dict-valued key would be
unhashable in Python (TypeError), which the callers model separately. -/
def scalarEq : Json → Json → Bool
  | .null, .null => true
  | .bool a, .bool b => a == b
  | .num a, .num b => a == b
  | .str a, .str b => a == b
  | _, _ => false

/-- Python `key in j` (`j` a JSON value): key membership for objects,
element membership for arrays, substring for strings; `none` models the
TypeError raised on numbers/booleans/null. -/
def pyInStr (k : String) : Json → Option Bool
  | .obj kvs => some (alookup kvs k).isSome
  | .arr es => some (es.any (fun e => match e with | .str s => s == k | _ => false))
  | .str s => some (strContains s k)
  | _ => none

/-- Extraction of the author-count dictionary key for one commit
(scoring_system.py 571-574): `commit.get("author", {})` then
`author.get("email", "unknown")`. `none` models an exception: the commit
or its author field is not a mapping, or the email is unhashable. -/
def authorKey (commit : Json) : Option Json :=
  match commit with
  | .obj ckvs =>
      match (alookup ckvs "author").getD (.obj []) with
      | .obj akvs =>
          match (alookup akvs "email").getD (.str "unknown") with
          | .arr _ => none
          | .obj _ => none
          | e => some e
      | _ => none
  | _ => none

/-- Increment of the per-author commit tally (dictionary insertion order
preserved, as in Python). -/
def bumpCount : List (Json × ℕ) → Json → List (Json × ℕ)
  | [], k => [(k, 1)]
  | (k0, n) :: rest, k =>
      if scalarEq k0 k then (k0, n + 1) :: rest else (k0, n) :: bumpCount rest k

/-- The `author_counts` loop of `_calculate_top1_share` (lines 570-574);
`none` models an exception escaping the loop. -/
def authorCountsAux : List Json → List (Json × ℕ) → Option (List (Json × ℕ))
  | [], acc => some acc
  | c :: cs, acc =>
      match authorKey c with
      | none => none
      | some k => authorCountsAux cs (bumpCount acc k)

/-- Maximum tally, modelling `max(author_counts.values())` on a nonempty
dictionary. -/
def maxCount (counts : List (Json × ℕ)) : ℕ :=
  counts.foldl (fun m p => max m p.2) 0

/-- `_calculate_top1_share` (scoring_system.py 560-586). The result is the
top-author share percentage; `none` models an exception (caught by
`_get_metric_value` / `_estimate_metric_value`). Non-mapping
`commits_data` raises on `.get`; a truthy non-list `recent_commits`
raises on `len`/iteration. -/
def _calculate_top1_share (commits_data : Json) : Option ℚ :=
  if jsonTruthy commits_data = false then some 0
  else
    match pyInStr "recent_commits" commits_data with
    | none => none
    | some false => some 0
    | some true =>
        match commits_data with
        | .obj kvs =>
            let commits := (alookup kvs "recent_commits").getD (.arr [])
            if jsonTruthy commits = false then some 0
            else
              match commits with
              | .arr cs =>
                  match authorCountsAux cs [] with
                  | none => none
                  | some counts =>
                      match counts with
                      | [] => some 0
                      | _ :: _ =>
                          some (((maxCount counts : ℚ) / (cs.length : ℚ)) * 100)
              | _ => none
        | _ => none

/-- One step of the active-maintainer loop (scoring_system.py 605-622).
`acc` is the set of active author emails in insertion order. `some acc'`
covers both a processed commit and every per-commit `continue` (missing
or malformed date, commit outside the window, non-mapping author,
unhashable email — all swallowed by the per-commit `try`). `none` models
the one uncaught exception: `commit.get` on a non-mapping commit. -/
def activeStep (now : ℤ) (acc : List Json) (commit : Json) : Option (List Json) :=
  match commit with
  | .obj ckvs =>
      let dstr := (alookup ckvs "date").getD (.str "")
      if jsonTruthy dstr = false then some acc
      else
        match dstr with
        | .str s =>
            match parseDate s with
            | none => some acc
            | some t =>
                if t ≥ now - 90 * 86400 then
                  match (alookup ckvs "author").getD (.obj []) with
                  | .obj akvs =>
                      match (alookup akvs "email").getD (.str "unknown") with
                      | .arr _ => some acc
                      | .obj _ => some acc
                      | e => some (if acc.any (fun x => scalarEq x e) then acc else acc ++ [e])
                  | _ => some acc
                else some acc
        | _ => some acc
  | _ => none

/-- The loop of `_calculate_active_maintainers` over the commit list. -/
def activeAux (now : ℤ) : List Json → List Json → Option (List Json)
  | [], acc => some acc
  | c :: cs, acc =>
      match activeStep now acc c with
      | none => none
      | some acc2 => activeAux now cs acc2

/-- `_calculate_active_maintainers` (scoring_system.py 588-624): distinct
author emails with a parseable commit date in the last 90 days before
`now`. `none` models an uncaught exception. -/
def _calculate_active_maintainers (now : ℤ) (commits_data : Json) : Option ℕ :=
  if jsonTruthy commits_data = false then some 0
  else
    match pyInStr "recent_commits" commits_data with
    | none => none
    | some false => some 0
    | some true =>
        match commits_data with
        | .obj kvs =>
            let commits := (alookup kvs "recent_commits").getD (.arr [])
            if jsonTruthy commits = false then some 0
            else
              match commits with
              | .arr cs => (activeAux now cs []).map List.length
              | _ => none
        | _ => none

/-- A metric's `source` mapping: `source.get("path")` / `source.get("field")`
(scoring_system.py 462-463). An empty `source` dict has both fields
absent. -/
structure Source where
  path : Option String
  field : Option String

/-- One remapping entry of the static `field_mapping` table
(scoring_system.py 480-493): either a substituted field name or one of
the two computed statistics. -/
inductive RemapRule where
  | renamed (field : String)
  | top1Share
  | activeMaintainers

/-- The static `field_mapping` table (scoring_system.py 480-493). -/
def fieldMapping (path field : String) : Option RemapRule :=
  if path = "security/deps-sca.json" then
    if field = "critical_open" then some (.renamed "summary.critical")
    else if field = "high_open" then some (.renamed "summary.high")
    else if field = "medium_open" then some (.renamed "summary.medium")
    else none
  else if path = "change/commits.json" then
    if field = "contributors.top1_share_pct" then some .top1Share
    else if field = "contributors.active_maintainers_90d" then some .activeMaintainers
    else none
  else if path = "quality/coverage-summary.json" then
    if field = "core_modules_coverage_pct" then some (.renamed "lines")
    else none
  else none

/-- Dotted-path walk of `_get_metric_value` (scoring_system.py 506-516):
each segment must pass through a mapping and resolve to a non-`None`
value, else the whole read is absent. A JSON `null` is Python `None`. -/
def walkParts : Json → List String → Option Json
  | v, [] => some v
  | .obj kvs, p :: ps =>
      match alookup kvs p with
      | none => none
      | some .null => none
      | some w => walkParts w ps
  | _, _ :: _ => none

/-- Final field extraction of `_get_metric_value` (lines 505-518): dotted
fields walk nested mappings; a plain field is `data.get(field)` (a JSON
`null` is Python `None`, treated as absent upstream; `.get` on a
non-mapping raises, caught by the surrounding `try`). -/
def readField (data : Json) (field : String) : Option Json :=
  if field.data.contains '.' then walkParts data (splitDot field)
  else
    match data with
    | .obj kvs =>
        match alookup kvs field with
        | some .null => none
        | r => r
    | _ => none

/-- Dotted-path walk of `_get_metric_value_fallback` (lines 539-550). It
differs from the primary walk: reaching a non-mapping mid-walk `break`s
and returns the partially-resolved value (if it is not `None`), instead
of giving up. -/
def fallbackWalk : Json → List String → Option Json
  | v, [] => some v
  | .obj kvs, p :: ps =>
      match alookup kvs p with
      | none => none
      | some .null => none
      | some w => fallbackWalk w ps
  | .null, _ :: _ => none
  | v, _ :: _ => some v

/-- Value extraction from one alternative file
(`_get_metric_value_fallback`, lines 538-554); `none` means this
alternative yielded nothing (including a raised exception) and the next
one is tried. -/
def fallbackRead (data : Json) (field : String) : Option Json :=
  if field.data.contains '.' then fallbackWalk data (splitDot field)
  else
    match data with
    | .obj kvs =>
        match alookup kvs field with
        | some .null => none
        | r => r
    | _ => none

/-- The loop over alternative paths (lines 532-556): missing files,
malformed files and absent values are each skipped (`continue`). -/
def tryAlts (env : Env) (field : String) : List String → Option Json
  | [] => none
  | a :: rest =>
      match env.fs a with
      | some (.json data) =>
          match fallbackRead data field with
          | some v => some v
          | none => tryAlts env field rest
      | _ => tryAlts env field rest

/-- The static `alternative_paths` table (scoring_system.py 525-529). -/
def alternative_paths (path : String) : Option (List String) :=
  if path = "security/deps-sca.json" then
    some ["security/deps-sca.json", "security/security.json"]
  else if path = "quality/sonar.json" then
    some ["quality/sonar.json", "quality/quality.json"]
  else if path = "change/commits.json" then
    some ["change/commits.json", "change/history.json"]
  else none

/-- `_get_metric_value_fallback` (scoring_system.py 522-558). -/
def _get_metric_value_fallback (env : Env) (source_path source_field : String) : Option Json :=
  match alternative_paths source_path with
  | some alts => tryAlts env source_field alts
  | none => none

/-- `_get_metric_value` (scoring_system.py 457-520). `none` is the absent
result. Note that the fallback is consulted only when the primary file
does not exist (line 471); if it exists but `json.load` or the field
extraction fails, the `except` returns `None` directly. -/
def _get_metric_value (env : Env) (now : ℤ) (source : Source) : Option Json :=
  match source.path, source.field with
  | some sp, some sf =>
      if sp = "" then none
      else if sf = "" then none
      else
        match env.fs sp with
        | none => _get_metric_value_fallback env sp sf
        | some .malformed => none
        | some (.json data) =>
            match fieldMapping sp sf with
            | some .top1Share => (_calculate_top1_share data).map Json.num
            | some .activeMaintainers =>
                (_calculate_active_maintainers now data).map (fun n => Json.num (n : ℚ))
            | some (.renamed f2) => readField data f2
            | none => readField data sf
  | _, _ => none

/-- One threshold dict of a ladder: the `lte` / `gte` fields are present
iff the corresponding key is in the dict (`"lte" in threshold`); `score`
holds `threshold.get("score", 0)` (default baked in, the code never
distinguishes a missing score from `0`). -/
structure Threshold where
  lte : Option ℚ
  gte : Option ℚ
  score : ℚ
deriving DecidableEq

/-- The value of `normalization.get("type")`, with `other` covering a
missing or unrecognized type. -/
inductive NormType where
  | thresholds
  | boolean
  | mapping
  | other

/-- A `NormalizationSpec` dict in typed form. `thresholds`, `direction`,
`interpolate_between_points` and `mapping` carry the `.get` defaults
(`[]`, `"higher_is_better"`, `False`, `{}`) baked in; `true_score` /
`false_score` stay optional because `_normalize_boolean` applies their
defaults (100 / 0) itself. -/
structure NormSpec where
  ntype : NormType
  thresholds : List Threshold
  direction : String
  interpolate_between_points : Bool
  true_score : Option ℚ
  false_score : Option ℚ
  mapping : List (String × ℚ)

/-- Sort key `x.get("lte", 0)` (scoring_system.py 667). -/
def lteKey (t : Threshold) : ℚ := t.lte.getD 0

/-- Sort key `x.get("gte", 0)` (scoring_system.py 686). -/
def gteKey (t : Threshold) : ℚ := t.gte.getD 0

/-- `"lte" in t`. -/
def hasLte (t : Threshold) : Bool := t.lte.isSome

/-- `"gte" in t`. -/
def hasGte (t : Threshold) : Bool := t.gte.isSome

/-- Ascending order on the `lte` bound, the key of
`sorted(lte_thresholds, key=lambda x: x.get("lte", 0))`. -/
def lteOrder (a b : Threshold) : Prop := lteKey a ≤ lteKey b

instance : DecidableRel lteOrder := fun a b => inferInstanceAs (Decidable (lteKey a ≤ lteKey b))

instance : IsTotal Threshold lteOrder := ⟨fun a b => le_total (lteKey a) (lteKey b)⟩

instance : IsTrans Threshold lteOrder := ⟨fun _ _ _ h h2 => le_trans h h2⟩

/-- Descending order on the `gte` bound, the key of
`sorted(gte_thresholds, key=..., reverse=True)`; as in Python the sort is
stable, ties keep their original order. -/
def gteOrder (a b : Threshold) : Prop := gteKey b ≤ gteKey a

instance : DecidableRel gteOrder := fun a b => inferInstanceAs (Decidable (gteKey b ≤ gteKey a))

instance : IsTotal Threshold gteOrder := ⟨fun a b => le_total (gteKey b) (gteKey a)⟩

instance : IsTrans Threshold gteOrder := ⟨fun _ _ _ h h2 => le_trans h2 h⟩

/-- The `float(value)` conversion of `_normalize_thresholds` (lines
651-659): booleans were already mapped to 1.0/0.0, numbers pass through,
anything else raises ValueError/TypeError which the code answers with
`0.0`. (Python would also convert numeric strings; no spec or claim
exercises that.) -/
def toFloatValue : Json → Option ℚ
  | .bool true => some 1
  | .bool false => some 0
  | .num q => some q
  | _ => none

/-- The `lte` threshold walk (scoring_system.py 668-680): `prev` is the
previously visited (smaller-bound) threshold; the first threshold whose
bound is ≥ the value wins, interpolating from `prev` when requested.
`none` means the value exceeded every bound. -/
def walkLte (interpolate : Bool) (value : ℚ) : Option Threshold → List Threshold → Option ℚ
  | _, [] => none
  | prev, t :: rest =>
      if value ≤ lteKey t then
        some
          (if interpolate then
            match prev with
            | some p =>
                if lteKey t ≠ lteKey p then
                  p.score + (t.score - p.score) * ((value - lteKey p) / (lteKey t - lteKey p))
                else t.score
            | none => t.score
          else t.score)
      else walkLte interpolate value (some t) rest

/-- The `gte` threshold walk (scoring_system.py 687-700): thresholds come
descending; `prev` is the previously visited (larger-bound) threshold,
which is the `next_threshold = sorted_thresholds[i-1]` interpolation
target. `none` means the value was below every bound. -/
def walkGte (interpolate : Bool) (value : ℚ) : Option Threshold → List Threshold → Option ℚ
  | _, [] => none
  | prev, t :: rest =>
      if value ≥ gteKey t then
        some
          (if interpolate then
            match prev with
            | some nxt =>
                if gteKey nxt ≠ gteKey t then
                  t.score +
                    (nxt.score - t.score) * ((value - gteKey t) / (gteKey nxt - gteKey t))
                else t.score
            | none => t.score
          else t.score)
      else walkGte interpolate value (some t) rest

/-- The mixed-threshold search (scoring_system.py 704-713): pick the
smallest satisfied `lte` bound, or else the largest satisfied `gte`
bound, reading the comparison key of a candidate with `.get(key, 0)`
even when the current best is of the other kind — exactly as the code
does. -/
def mixedBest (value : ℚ) : List Threshold → Option Threshold → Option Threshold
  | [], best => best
  | t :: rest, best =>
      let best2 :=
        if hasLte t && decide (value ≤ lteKey t) then
          match best with
          | none => some t
          | some b => if lteKey t < lteKey b then some t else some b
        else if hasGte t && decide (value ≥ gteKey t) then
          match best with
          | none => some t
          | some b => if gteKey t > gteKey b then some t else some b
        else best
      mixedBest value rest best2

/-- `_normalize_thresholds` (scoring_system.py 642-718). -/
def _normalize_thresholds (value : Json) (normalization : NormSpec) : ℚ :=
  if normalization.thresholds = [] then 0
  else
      match toFloatValue value with
      | none => 0
      | some v =>
          if normalization.thresholds.filter hasLte ≠ [] ∧
              normalization.direction = "lower_is_better" then
            match walkLte normalization.interpolate_between_points v none
                (List.insertionSort lteOrder (normalization.thresholds.filter hasLte)) with
            | some s => s
            | none =>
                match (List.insertionSort lteOrder
                    (normalization.thresholds.filter hasLte)).getLast? with
                | some t => t.score
                | none => 0
          else if normalization.thresholds.filter hasGte ≠ [] ∧
              normalization.direction = "higher_is_better" then
            match walkGte normalization.interpolate_between_points v none
                (List.insertionSort gteOrder (normalization.thresholds.filter hasGte)) with
            | some s => s
            | none =>
                match (List.insertionSort gteOrder
                    (normalization.thresholds.filter hasGte)).getLast? with
                | some t => t.score
                | none => 0
          else
            match mixedBest v normalization.thresholds none with
            | some b => b.score
            | none => 0

/-- `_normalize_boolean` (scoring_system.py 720-725): Python truthiness of
the value selects `true_score` (default 100) or `false_score`
(default 0). -/
def _normalize_boolean (value : Json) (normalization : NormSpec) : ℚ :=
  if jsonTruthy value then normalization.true_score.getD 100
  else normalization.false_score.getD 0

/-- Python `str()` of a JSON value, the lookup key of
`_normalize_mapping`. Strings map to themselves as in Python; the exact
rendering of the other cases is not load-bearing for any claim. -/
def pyStr : Json → String
  | .str s => s
  | .bool true => "True"
  | .bool false => "False"
  | .null => "None"
  | .num q => toString q
  | .arr _ => "<list>"
  | .obj _ => "<dict>"

/-- `_normalize_mapping` (scoring_system.py 727-730):
`mapping.get(str(value), 0)`. -/
def _normalize_mapping (value : Json) (normalization : NormSpec) : ℚ :=
  (alookup normalization.mapping (pyStr value)).getD 0

/-- `_normalize_value` (scoring_system.py 626-640): `None` → 0.0, then
dispatch on the normalization type; unknown types score 0.0. -/
def _normalize_value (value : Option Json) (normalization : NormSpec) : ℚ :=
  match value with
  | none => 0
  | some v =>
      match normalization.ntype with
      | .thresholds => _normalize_thresholds v normalization
      | .boolean => _normalize_boolean v normalization
      | .mapping => _normalize_mapping v normalization
      | .other => 0

/-- The modern-framework list used by the velocity heuristics
(scoring_system.py 193, 207, 214). -/
def modernFrameworks : List String := ["NestJS", "Next.js", "FastAPI"]

/-- `any(f in ["NestJS", "Next.js", "FastAPI"] for f in frameworks)`. -/
def hasModernStack (env : Env) : Bool :=
  env.frameworks.any (fun f => modernFrameworks.contains f)

/-- The 30-day commit count of the deploy-frequency heuristic (lines
185-189). `none` models the TypeError raised when a commit is not a
mapping or `_parse_commit_date` returns `None` (comparing `None` with a
datetime raises), which the surrounding `try` answers by falling back to
the default estimate. -/
def commits30Count (now : ℤ) (cs : List Json) : Option ℕ :=
  cs.foldl
    (fun acc c =>
      match acc with
      | none => none
      | some n =>
          match c with
          | .obj ckvs =>
              match (alookup ckvs "date").getD (.str "") with
              | .str s =>
                  match parseDate s with
                  | none => none
                  | some t => some (if t ≥ now - 30 * 86400 then n + 1 else n)
              | _ => none
          | _ => none)
    (some 0)

/-- The `deploys_per_month` heuristic (scoring_system.py 174-209). Every
failure path (missing/malformed file, non-list or empty commit list, a
raised exception, fewer than 5 recent commits) falls through to the
default stack-based estimate. -/
def estimateDeploys (env : Env) (now : ℤ) : Option Json :=
  let defaultEstimate : Option Json :=
    if hasModernStack env then some (.num 4) else some (.num 0)
  match env.fs "change/commits.json" with
  | some (.json (.obj kvs)) =>
      let rc := (alookup kvs "recent_commits").getD (.arr [])
      if jsonTruthy rc then
        match rc with
        | .arr cs =>
            match commits30Count now cs with
            | none => defaultEstimate
            | some n =>
                if n ≥ 20 ∧ hasModernStack env then some (.num 10)
                else if n ≥ 10 then some (.num 4)
                else if n ≥ 5 then some (.num 1)
                else defaultEstimate
        | _ => defaultEstimate
      else defaultEstimate
  | _ => defaultEstimate

/-- The `lead_time_pr_to_prod_hours` heuristic (lines 211-222). -/
def estimateLeadTime (env : Env) : Option Json :=
  if hasModernStack env ∧ env.has_typescript then some (.num 24)
  else if hasModernStack env then some (.num 48)
  else some (.num 96)

/-- Feature-commit keywords (line 234). -/
def featureKeywords : List String := ["feat", "feature", "new", "add", "implement"]

/-- Count of feature commits among the given (already truncated) commits
(lines 235-236); `none` models a raised exception (non-mapping commit or
non-string message). -/
def featureCount (cs : List Json) : Option ℕ :=
  cs.foldl
    (fun acc c =>
      match acc with
      | none => none
      | some n =>
          match c with
          | .obj ckvs =>
              match (alookup ckvs "message").getD (.str "") with
              | .str m =>
                  some
                    (if featureKeywords.any (fun kw => strContains (lowerStr m) kw) then n + 1
                     else n)
              | _ => none
          | _ => none)
    (some 0)

/-- The `features_shipped_per_month` heuristic (lines 224-240): feature
commits among the most recent 20, capped at 12; every failure path
returns the default 2. -/
def estimateFeatures (env : Env) : Option Json :=
  match env.fs "change/commits.json" with
  | some (.json (.obj kvs)) =>
      let rc := (alookup kvs "recent_commits").getD (.arr [])
      if jsonTruthy rc then
        match rc with
        | .arr cs =>
            match featureCount (cs.take 20) with
            | none => some (.num 2)
            | some k => some (.num ((min k 12 : ℕ) : ℚ))
        | _ => some (.num 2)
      else some (.num 2)
  | _ => some (.num 2)

/-- The `change_failure_rate_pct` heuristic (lines 244-255). -/
def estimateChangeFailure (env : Env) : Option Json :=
  if env.frameworks.contains "NestJS" ∧ env.has_typescript then some (.num 5)
  else if env.has_typescript then some (.num 10)
  else some (.num 15)

/-- The `mttr_minutes` heuristic (lines 257-262). -/
def estimateMttr (env : Env) : Option Json :=
  if env.frameworks.contains "NestJS" then some (.num 60) else some (.num 120)

/-- The `stateless_services_pct` heuristic (lines 270-286). -/
def estimateStateless (env : Env) : Option Json :=
  if env.frameworks.contains "NestJS" then
    if env.metricsFiles > 20 then some (.num 90) else some (.num 75)
  else if env.frameworks.contains "Express" then some (.num 70)
  else some (.num 60)

/-- Queue/worker dependency keywords (line 297). -/
def asyncKeywords : List String := ["bull", "bullmq", "rabbitmq", "redis", "queue", "celery", "kafka"]

/-- Lower-cased dependency names (line 295); `none` models a raised
exception (non-mapping dependency entry or non-string name). -/
def depNamesLower (ds : List Json) : Option (List String) :=
  ds.foldr
    (fun d acc =>
      match acc with
      | none => none
      | some ns =>
          match d with
          | .obj dkvs =>
              match (alookup dkvs "name").getD (.str "") with
              | .str s => some (lowerStr s :: ns)
              | _ => none
          | _ => none)
    (some [])

/-- The dependency half of the `async_processing_present` heuristic (lines
289-301): true only when `dependencies.json` parses, its dependency names
extract cleanly, and a keyword occurs in their space-joined
concatenation; every failure path falls through (false). -/
def asyncFromDeps (env : Env) : Bool :=
  match env.fs "dependencies.json" with
  | some (.json (.obj kvs)) =>
      match (alookup kvs "dependencies").getD (.arr []) with
      | .arr ds =>
          match depNamesLower ds with
          | some names =>
              asyncKeywords.any (fun kw => strContains (String.intercalate " " names) kw)
          | none => false
      | _ => false
  | _ => false

/-- Repository-name keywords of the async heuristic (line 305). -/
def repoNameKeywords : List String := ["scheduler", "worker", "queue", "job"]

/-- The `async_processing_present` heuristic (lines 288-308). -/
def estimateAsync (env : Env) : Option Json :=
  if asyncFromDeps env then some (.bool true)
  else if repoNameKeywords.any (fun kw => strContains (lowerStr env.repoFactsName) kw) then
    some (.bool true)
  else some (.bool false)

/-- The `critical_cves_open` heuristic (lines 316-326):
`data.get("summary", {}).get("critical", 0)`, any failure giving 0. A
JSON `null` under `critical` is Python `None`, i.e. no estimate. -/
def estimateCriticalCves (env : Env) : Option Json :=
  match env.fs "security/deps-sca.json" with
  | some (.json (.obj kvs)) =>
      match (alookup kvs "summary").getD (.obj []) with
      | .obj skvs =>
          match (alookup skvs "critical").getD (.num 0) with
          | .null => none
          | v => some v
      | _ => some (.num 0)
  | _ => some (.num 0)

/-- The `secrets_detected` heuristic (lines 327-337). -/
def estimateSecrets (env : Env) : Option Json :=
  match env.fs "security/secrets.json" with
  | some (.json (.obj kvs)) =>
      match (alookup kvs "secrets_found").getD (.num 0) with
      | .null => none
      | v => some v
  | _ => some (.num 0)

/-- The `coverage_core_pct` heuristic (lines 341-354, repeated verbatim in
the dead branch at 430-441): `data.get("lines", 0)` when the summary is a
truthy mapping with a `lines` key, else 0. On non-mapping JSON, either
the `in` test or the `.get` raises and the `except`/fall-through yields
the default 0. A JSON `null` under `lines` is Python `None`, i.e. no
estimate. -/
def estimateCoverage (env : Env) : Option Json :=
  match env.fs "quality/coverage-summary.json" with
  | some (.json (.obj kvs)) =>
      if jsonTruthy (.obj kvs) ∧ (alookup kvs "lines").isSome then
        match (alookup kvs "lines").getD (.num 0) with
        | .null => none
        | v => some v
      else some (.num 0)
  | _ => some (.num 0)

/-- The bus-factor estimations (lines 357-370): recompute the commit
statistics from `change/commits.json`; any failure (missing or malformed
file, exception in the computation) yields no estimate. -/
def estimateBusFactor (env : Env) (now : ℤ) (metric_key : String) : Option Json :=
  match env.fs "change/commits.json" with
  | some (.json data) =>
      if metric_key = "top1_author_share_pct" then (_calculate_top1_share data).map Json.num
      else (_calculate_active_maintainers now data).map (fun n => Json.num (n : ℚ))
  | _ => none

/-- The `ci_cd_present` heuristic (lines 374-387): true when
`build/build.json` parses to a mapping with truthy `ci_cd`; every other
path returns whether the file exists at all. -/
def estimateCiCd (env : Env) : Option Json :=
  let buildExists := (env.fs "build/build.json").isSome
  match env.fs "build/build.json" with
  | some (.json (.obj kvs)) =>
      if jsonTruthy ((alookup kvs "ci_cd").getD .null) then some (.bool true)
      else some (.bool buildExists)
  | _ => some (.bool buildExists)

/-- `_estimate_metric_value` (scoring_system.py 167-443). The `metric`
parameter of the Python function is unused, so it is not modelled. The
`elif` chain tests `dimension_key == "maintainability"` twice (lines 340
and 408); the second branch is kept in place, after `governance`, exactly
as in the source. A fall through the whole chain returns `None`
(line 443). -/
def _estimate_metric_value (env : Env) (now : ℤ) (metric_key dimension_key : String) :
    Option Json :=
  if dimension_key = "velocity" then
    if metric_key = "deploys_per_month" then estimateDeploys env now
    else if metric_key = "lead_time_pr_to_prod_hours" then estimateLeadTime env
    else if metric_key = "features_shipped_per_month" then estimateFeatures env
    else none
  else if dimension_key = "stability" then
    if metric_key = "change_failure_rate_pct" then estimateChangeFailure env
    else if metric_key = "mttr_minutes" then estimateMttr env
    else if metric_key = "prod_incidents_last_30d" then some (.num 0)
    else none
  else if dimension_key = "scalability" then
    if metric_key = "stateless_services_pct" then estimateStateless env
    else if metric_key = "async_processing_present" then estimateAsync env
    else if metric_key = "autoscaling_configured" then some (.bool false)
    else none
  else if dimension_key = "security" then
    if metric_key = "critical_cves_open" then estimateCriticalCves env
    else if metric_key = "secrets_detected" then estimateSecrets env
    else none
  else if dimension_key = "maintainability" then
    if metric_key = "coverage_core_pct" then estimateCoverage env
    else none
  else if dimension_key = "bus_factor" then
    if metric_key = "top1_author_share_pct" ∨ metric_key = "active_maintainers_count" then
      estimateBusFactor env now metric_key
    else none
  else if dimension_key = "governance" then
    if metric_key = "ci_cd_present" then estimateCiCd env
    else if metric_key = "onboarding_docs_present" then
      some (.bool (env.fs "docs/README.enriched.md").isSome)
    else if metric_key = "runbooks_present" then
      some (.bool (env.fs "docs/runbook.md").isSome)
    else if metric_key = "adrs_present" then
      some (.bool (["docs/adr", "adr", "docs/decisions"].any env.repoRootDirExists))
    else if metric_key = "evidence_per_build_published" then
      some (.bool (env.fs "build/build.json").isSome)
    else none
  else if dimension_key = "maintainability" then
    if metric_key = "sonar_maintainability_rating" then
      if env.frameworks.contains "NestJS" ∧ env.has_typescript then some (.str "B")
      else if env.has_typescript then some (.str "C")
      else some (.str "C")
    else if metric_key = "duplication_pct" then
      if env.frameworks.contains "NestJS" then some (.num 3) else some (.num 8)
    else if metric_key = "coverage_core_pct" then estimateCoverage env
    else none
  else none

/-- A metric definition of a dimension: `key`, `metric_weight` (with the
`.get` default 0 baked in), `source` and `normalization`. -/
structure MetricDef where
  key : String
  metric_weight : ℚ
  source : Source
  normalization : NormSpec

/-- A dimension definition: `key` and its `metrics` list (with the `.get`
default `[]` baked in). -/
structure Dimension where
  key : String
  metrics : List MetricDef

/-- The value-resolution step of `_calculate_dimension_score` (lines
144-149): read the source, fall back to estimation when absent. -/
def resolveMetricValue (env : Env) (now : ℤ) (dimension_key : String) (metric : MetricDef) :
    Option Json :=
  match _get_metric_value env now metric.source with
  | some v => some v
  | none => _estimate_metric_value env now metric.key dimension_key

/-- One iteration of the metric loop of `_calculate_dimension_score`
(lines 138-159): `acc` is the pair `(dimension_score, has_valid_values)`;
an absent value leaves both untouched, a present one adds its normalized
score weighted by `metric_weight / total_weight`. -/
def dimensionStep (env : Env) (now : ℤ) (dimension_key : String) (total_weight : ℚ)
    (acc : ℚ × Bool) (metric : MetricDef) : ℚ × Bool :=
  let value := resolveMetricValue env now dimension_key metric
  let normalized_score := _normalize_value value metric.normalization
  match value with
  | none => acc
  | some _ => (acc.1 + normalized_score * (metric.metric_weight / total_weight), true)

/-- `_calculate_dimension_score` (scoring_system.py 123-165): weighted sum
of normalized metric scores (weights relative to the dimension's total),
0.0 when there are no metrics, zero total weight, or no metric resolved
any value; otherwise clamped to [0, 100]. -/
def _calculate_dimension_score (env : Env) (now : ℤ) (dimension : Dimension) : ℚ :=
  match dimension.metrics with
  | [] => 0
  | _ :: _ =>
      let total_weight := (dimension.metrics.map (fun m => m.metric_weight)).sum
      if total_weight = 0 then 0
      else
        let acc :=
          dimension.metrics.foldl (dimensionStep env now dimension.key total_weight)
            ((0 : ℚ), false)
        if acc.2 = false then 0 else min 100 (max 0 acc.1)

/-- Python `round()` to the nearest integer, halves to even. (CPython
rounds the binary double; exact decimal ties are modelled as exact
ties.) -/
def roundHalfEven (q : ℚ) : ℤ :=
  if q - ⌊q⌋ < 1 / 2 then ⌊q⌋
  else if q - ⌊q⌋ > 1 / 2 then ⌊q⌋ + 1
  else if 2 ∣ ⌊q⌋ then ⌊q⌋ else ⌊q⌋ + 1

/-- Python `round(q, 2)`. -/
def pyRound2 (q : ℚ) : ℚ := (roundHalfEven (q * 100) : ℚ) / 100

/-- Python `round(q, 1)`. -/
def pyRound1 (q : ℚ) : ℚ := (roundHalfEven (q * 10) : ℚ) / 10

/-- The three dimensions feeding the product-quality rating (line 735). -/
def qualityDims : List String := ["maintainability", "security", "scalability"]

/-- `_calculate_product_quality_rating` (scoring_system.py 732-754):
average the present quality-dimension scores, map [0,100] linearly to
[1,10], round to one decimal; 1.0 when none of the three is present. -/
def _calculate_product_quality_rating (dimension_scores : List (String × ℚ)) : ℚ :=
  let acc :=
    qualityDims.foldl
      (fun acc dim =>
        match alookup dimension_scores dim with
        | some s => (acc.1 + s, acc.2 + 1)
        | none => acc)
      ((0 : ℚ), (0 : ℕ))
  if acc.2 = 0 then 1
  else pyRound1 (1 + acc.1 / (acc.2 : ℚ) / 100 * 9)

/-- `_score_to_grade` (scoring_system.py 756-767). -/
def _score_to_grade (score : ℚ) : String :=
  if score ≥ 90 then "A"
  else if score ≥ 80 then "B"
  else if score ≥ 70 then "C"
  else if score ≥ 60 then "D"
  else "E"

/-- Python `f"{q:.1f}"` for the nonnegative scores that reach it. -/
def fmtFixed1 (q : ℚ) : String :=
  toString (roundHalfEven (q * 10) / 10) ++ "." ++ toString (roundHalfEven (q * 10) % 10)

/-- `_generate_notes` (scoring_system.py 769-789): flag the lowest-scoring
dimension when it is below 50, then exactly one overall assessment keyed
to the final score. The `sorted` by score is stable, as in Python. -/
def _generate_notes (scores : List (String × ℚ)) (final_score : ℚ) : List String :=
  let sorted_dims := List.insertionSort (fun a b : String × ℚ => a.2 ≤ b.2) scores
  let lowNotes : List String :=
    match sorted_dims with
    | [] => []
    | (lowest_dim, lowest_score) :: _ =>
        if lowest_score < 50 then
          ["Lowest scoring dimension: " ++ lowest_dim ++ " (" ++ fmtFixed1 lowest_score ++
            "/100). Needs improvement."]
        else []
  let overall : String :=
    if final_score ≥ 80 then "Strong engineering practices. Ready for VC evaluation."
    else if final_score ≥ 60 then "Good engineering foundation. Some areas need improvement."
    else "Engineering practices need significant improvement before VC evaluation."
  lowNotes ++ [overall]

/-- The scoring model part of the configuration: `final_score_weights` and
the dimension list (the only parts `calculate_scores` reads). -/
structure ScoringModel where
  final_score_weights : List (String × ℚ)
  dimensions : List Dimension

/-- The configuration held in `self.metrica_config`. -/
structure MetricaConfig where
  scoring_model : ScoringModel

/-- `_get_default_config` (scoring_system.py 57-77): fixed final-score
weights and an empty dimension list. -/
def _get_default_config : MetricaConfig :=
  { scoring_model :=
    { final_score_weights :=
        [("velocity", 2 / 10), ("stability", 15 / 100), ("scalability", 15 / 100),
          ("security", 15 / 100), ("maintainability", 15 / 100), ("bus_factor", 1 / 10),
          ("governance", 1 / 10)]
      dimensions := [] } }

/-- A discovered scoring-config file after `json.load`. The `__init__`
wrap logic (scoring_system.py 39-55) distinguishes only: a parse failure,
a JSON document whose top level already has a `"scoring_model"` key, and
one without (which gets wrapped). The structural payload is modelled
already decoded to `ScoringModel` form; the dead second test at line 46
(`"scoring_model" in config_data.get("scoring_model", {})`, reachable
only when the first test failed, on which its `in` is over `{}`) adds no
fourth case. -/
inductive ConfigFile where
  | malformed
  | wrapped (m : ScoringModel)
  | bare (m : ScoringModel)

/-- The configuration-loading logic of `__init__` (scoring_system.py
39-55): no discoverable file or a parse failure selects the built-in
default. -/
def loadMetricaConfig : Option ConfigFile → MetricaConfig
  | none => _get_default_config
  | some .malformed => _get_default_config
  | some (.wrapped m) => { scoring_model := m }
  | some (.bare m) => { scoring_model := m }

/-- The output of `calculate_scores` (scoring_system.py 107-119);
`generated_at` holds the evaluation time (`datetime.now(timezone.utc)`),
`product_quality_rating` the `product_quality.rating` entry. -/
structure ScoreResult where
  repo : String
  commit : String
  generated_at : ℤ
  scores : List (String × ℚ)
  final_score : ℚ
  product_quality_rating : ℚ
  grade : String
  notes : List String

/-- Python dict insertion `d[k] = v` on an insertion-ordered association
list. -/
def dictInsert (d : List (String × ℚ)) (k : String) (v : ℚ) : List (String × ℚ) :=
  match d with
  | [] => [(k, v)]
  | (k0, v0) :: rest => if k0 = k then (k0, v) :: rest else (k0, v0) :: dictInsert rest k v

/-- `calculate_scores` (scoring_system.py 79-121). The wall clock read at
line 110 and the commit-window cutoffs are both the explicit `now`
parameter. -/
def calculate_scores (cfg : MetricaConfig) (env : Env) (now : ℤ)
    (repo_name commit_sha : String) : ScoreResult :=
  let weights := cfg.scoring_model.final_score_weights
  let scores :=
    cfg.scoring_model.dimensions.foldl
      (fun acc dimension =>
        dictInsert acc dimension.key (_calculate_dimension_score env now dimension))
      []
  let final_score :=
    scores.foldl (fun acc p => acc + p.2 * ((alookup weights p.1).getD 0)) 0
  { repo := repo_name
    commit := commit_sha
    generated_at := now
    scores := scores
    final_score := pyRound2 final_score
    product_quality_rating := _calculate_product_quality_rating scores
    grade := _score_to_grade final_score
    notes := _generate_notes scores final_score }

/-! ## Helper lemmas -/

theorem alookup_mem {α : Type} :
    ∀ (l : List (String × α)) (k : String) (v : α), alookup l k = some v → (k, v) ∈ l := by
  intro l
  induction l with
  | nil => intro k v h; simp [alookup] at h
  | cons p rest ih =>
      intro k v h
      rcases p with ⟨k0, v0⟩
      by_cases hk : k0 = k
      · subst hk
        simp [alookup] at h
        subst h
        exact List.mem_cons_self _ _
      · simp [alookup, hk] at h
        exact List.mem_cons_of_mem _ (ih k v h)

theorem mem_of_getLast? {α : Type} :
    ∀ (l : List α) (g : α), l.getLast? = some g → g ∈ l := by
  intro l
  induction l with
  | nil => intro g h; simp at h
  | cons a rest ih =>
      intro g h
      match rest, h with
      | [], h => simp at h; simp [h]
      | b :: t, h =>
          rw [List.getLast?_cons_cons] at h
          exact List.mem_cons_of_mem _ (ih g h)

/-- An evidence-free environment shared by several witnesses. -/
def envEmpty : Env :=
  { fs := fun _ => none
    frameworks := []
    has_typescript := false
    repoFactsName := ""
    metricsFiles := 0
    repoRootDirExists := fun _ => false }

/-! ## C9 -/

/-- C9: for the `maintainability` dimension the value estimator returns
absent (`None`) for every metric key other than `coverage_core_pct` —
whatever the stack/framework evidence — so `sonar_maintainability_rating`
and `duplication_pct` are never estimated and the second maintainability
branch of the estimator is unreachable. -/
theorem C9_maintainability_estimates_only_coverage (env : Env) (now : ℤ) (mk : String)
    (h : mk ≠ "coverage_core_pct") :
    _estimate_metric_value env now mk "maintainability" = none := by
  simp [_estimate_metric_value, h]

/-- C9 witness: `sonar_maintainability_rating` is never estimated, here in
an evidence-free environment. -/
theorem C9_witness :
    ("sonar_maintainability_rating" : String) ≠ "coverage_core_pct" ∧
      _estimate_metric_value envEmpty 0 "sonar_maintainability_rating" "maintainability" =
        none :=
  ⟨by decide,
    C9_maintainability_estimates_only_coverage envEmpty 0 "sonar_maintainability_rating"
      (by decide)⟩

/-! ## C2 -/

/-- C2 counterexample: two runs over identical evidence-root contents,
identical config, and the same `repo_name` / `commit_sha`, but at two
different wall-clock instants, produce different `ScoreResult`s (already
their `generated_at` fields differ), so the engine is not a pure function
of those four inputs alone. -/
theorem C2_counterexample :
    calculate_scores _get_default_config envEmpty 0 "repo" "sha" ≠
      calculate_scores _get_default_config envEmpty 86400 "repo" "sha" := by
  intro h
  have h2 := congrArg ScoreResult.generated_at h
  simp [calculate_scores] at h2

/-- C2 (amended): the scoring engine is deterministic once the evaluation
time is also fixed — `ScoreResult` is a pure function of (evidence-root
contents, scoring config, `repo_name`, `commit_sha`, evaluation time),
and the result's `generated_at` field is exactly the evaluation time. -/
theorem C2_amended_deterministic_given_time (cfg : MetricaConfig) (env : Env)
    (repo sha : String) (t1 t2 : ℤ) (h : t1 = t2) :
    calculate_scores cfg env t1 repo sha = calculate_scores cfg env t2 repo sha ∧
      (calculate_scores cfg env t1 repo sha).generated_at = t1 := by
  subst h
  exact ⟨rfl, rfl⟩

/-- C2 witness: the amended determinism at a concrete input. -/
theorem C2_witness :
    calculate_scores _get_default_config envEmpty 5 "r" "c" =
        calculate_scores _get_default_config envEmpty 5 "r" "c" ∧
      (calculate_scores _get_default_config envEmpty 5 "r" "c").generated_at = 5 :=
  C2_amended_deterministic_given_time _get_default_config envEmpty "r" "c" 5 5 rfl

/-! ## C10 -/

/-- C10: a missing or malformed scoring-config file selects the built-in
default model, whose dimension list is empty; and under that default,
for every evidence root, evaluation time, repo name and commit sha,
`calculate_scores` yields an empty score map, final score 0.0, grade "E",
product-quality rating 1.0, and exactly one overall-assessment note. -/
theorem C10_default_config_outcome (env : Env) (now : ℤ) (repo sha : String) :
    loadMetricaConfig none = _get_default_config ∧
      loadMetricaConfig (some .malformed) = _get_default_config ∧
      _get_default_config.scoring_model.dimensions = [] ∧
      (calculate_scores _get_default_config env now repo sha).scores = [] ∧
      (calculate_scores _get_default_config env now repo sha).final_score = 0 ∧
      (calculate_scores _get_default_config env now repo sha).grade = "E" ∧
      (calculate_scores _get_default_config env now repo sha).product_quality_rating = 1 ∧
      (calculate_scores _get_default_config env now repo sha).notes =
        ["Engineering practices need significant improvement before VC evaluation."] := by
  refine ⟨rfl, rfl, rfl, rfl, ?_, ?_, ?_, ?_⟩
  · simp [calculate_scores, _get_default_config, pyRound2, roundHalfEven]
  · simp [calculate_scores, _get_default_config, _score_to_grade]
    norm_num
  · simp [calculate_scores, _get_default_config, _calculate_product_quality_rating,
      qualityDims, alookup]
  · simp [calculate_scores, _get_default_config, _generate_notes, List.insertionSort]
    norm_num

/-! ## C7 -/

/-- The metric fold of `_calculate_dimension_score` leaves the accumulator
untouched when no metric resolves a value. -/
theorem dimension_fold_all_absent (env : Env) (now : ℤ) (dk : String) (tw : ℚ) :
    ∀ (ms : List MetricDef) (acc : ℚ × Bool),
      (∀ m ∈ ms, resolveMetricValue env now dk m = none) →
      ms.foldl (dimensionStep env now dk tw) acc = acc := by
  intro ms
  induction ms with
  | nil => intro acc _; rfl
  | cons m rest ih =>
      intro acc h
      have hm := h m (List.mem_cons_self m rest)
      simp only [List.foldl_cons, dimensionStep, hm]
      exact ih acc fun u hu => h u (List.mem_cons_of_mem m hu)

/-- A dimension score is syntactically either 0 or a clamped value. -/
theorem dimension_score_cases (env : Env) (now : ℤ) (dim : Dimension) :
    _calculate_dimension_score env now dim = 0 ∨
      ∃ x : ℚ, _calculate_dimension_score env now dim = min 100 (max 0 x) := by
  unfold _calculate_dimension_score
  split
  · exact Or.inl rfl
  · dsimp only
    split
    · exact Or.inl rfl
    · split
      · exact Or.inl rfl
      · exact Or.inr ⟨_, rfl⟩

/-- C7: every dimension score lies in [0,100], for any metric weights and
any resolved or estimated values; and when every metric of the dimension
resolves to absent (estimation included), the dimension score is exactly
0.0 — the dimension is scored, not skipped. -/
theorem C7_dimension_score_range (env : Env) (now : ℤ) (dim : Dimension) :
    (0 ≤ _calculate_dimension_score env now dim ∧
        _calculate_dimension_score env now dim ≤ 100) ∧
      ((∀ m ∈ dim.metrics, resolveMetricValue env now dim.key m = none) →
        _calculate_dimension_score env now dim = 0) := by
  constructor
  · rcases dimension_score_cases env now dim with h | ⟨x, h⟩
    · rw [h]; norm_num
    · rw [h]
      exact ⟨le_min (by norm_num) (le_max_left 0 x), min_le_left 100 (max 0 x)⟩
  · intro h
    unfold _calculate_dimension_score
    split
    · rfl
    · rename_i m0 ms heq
      rw [heq] at h
      rw [heq]
      dsimp only
      rw [dimension_fold_all_absent env now dim.key _ _ ((0 : ℚ), false) h]
      simp

/-- The "other"-typed normalization spec used by witnesses. -/
def normOther : NormSpec :=
  { ntype := .other
    thresholds := []
    direction := "higher_is_better"
    interpolate_between_points := false
    true_score := none
    false_score := none
    mapping := [] }

/-- A one-metric dimension whose metric has no source and no estimation
rule ("zzz" matches no dimension branch). -/
def dimNoEvidence : Dimension :=
  { key := "zzz"
    metrics :=
      [{ key := "k"
         metric_weight := 1
         source := { path := none, field := none }
         normalization := normOther }] }

/-- C7 witness: a dimension in which every metric resolves to absent
(estimation included) scores exactly 0. -/
theorem C7_witness :
    (∀ m ∈ dimNoEvidence.metrics, resolveMetricValue envEmpty 0 dimNoEvidence.key m = none) ∧
      _calculate_dimension_score envEmpty 0 dimNoEvidence = 0 := by
  have h : ∀ m ∈ dimNoEvidence.metrics, resolveMetricValue envEmpty 0 dimNoEvidence.key m = none := by
    intro m hm
    simp [dimNoEvidence] at hm
    subst hm
    simp [resolveMetricValue, _get_metric_value, _estimate_metric_value, dimNoEvidence]
  exact ⟨h, (C7_dimension_score_range envEmpty 0 dimNoEvidence).2 h⟩

/-! ## C3 -/

/-- C3 (amended): the resolver consults the configured alternative paths
exactly when the primary file does not exist; when the primary file
exists but its read fails (for example malformed JSON), the resolver
returns absent without attempting any alternative path. -/
theorem C3_amended_fallback_only_when_file_missing (env : Env) (now : ℤ) (sp sf : String)
    (hp : sp ≠ "") (hf : sf ≠ "") :
    (env.fs sp = none →
      _get_metric_value env now { path := some sp, field := some sf } =
        _get_metric_value_fallback env sp sf) ∧
    (env.fs sp = some .malformed →
      _get_metric_value env now { path := some sp, field := some sf } = none) := by
  constructor <;> intro h <;> simp [_get_metric_value, hp, hf, h]

/-- An evidence root whose `quality/sonar.json` exists but is malformed,
while the configured alternative `quality/quality.json` holds the wanted
field. -/
def envMalformedPrimary : Env :=
  { fs := fun p =>
      if p = "quality/sonar.json" then some .malformed
      else if p = "quality/quality.json" then some (.json (.obj [("foo", .num 42)]))
      else none
    frameworks := []
    has_typescript := false
    repoFactsName := ""
    metricsFiles := 0
    repoRootDirExists := fun _ => false }

/-- C3 counterexample: the primary read of `quality/sonar.json` fails
(the file exists but is malformed) and the configured alternative
`quality/quality.json` would yield the value 42, yet the resolver returns
absent — the alternatives are not attempted on a failed read of an
existing file. -/
theorem C3_counterexample :
    _get_metric_value envMalformedPrimary 0
        { path := some "quality/sonar.json", field := some "foo" } = none ∧
      _get_metric_value_fallback envMalformedPrimary "quality/sonar.json" "foo" =
        some (.num 42) := by
  constructor
  · rfl
  · rfl

/-- C3 witness: the amended statement at the malformed-primary evidence
root. -/
theorem C3_witness :
    _get_metric_value envMalformedPrimary 0
        { path := some "quality/sonar.json", field := some "foo" } = none :=
  (C3_amended_fallback_only_when_file_missing envMalformedPrimary 0 "quality/sonar.json" "foo"
      (by decide) (by decide)).2 rfl

/-! ## C8 -/

/-- The quality dimensions present in a score map, in the fixed order the
rating loop visits them. -/
def presentQualityDims (scores : List (String × ℚ)) : List String :=
  qualityDims.filter (fun d => (alookup scores d).isSome)

/-- C8 counterexample: with `maintainability` scored 33, the code rounds
the rating to one decimal: it returns 4.0, not the exact linear map
1 + 33/100 × 9 = 3.97 the claim states. -/
theorem C8_counterexample :
    _calculate_product_quality_rating [("maintainability", 33)] = 4 ∧
      ¬((4 : ℚ) = 1 + 33 / 100 * 9) := by
  constructor
  · simp [_calculate_product_quality_rating, qualityDims, alookup, pyRound1, roundHalfEven]
    norm_num [Int.fract]
  · norm_num

/-- C8 (amended): the product-quality rating equals the arithmetic mean of
the scores of exactly the present dimensions among `maintainability`,
`security` and `scalability`, linearly mapped from [0,100] to [1,10] and
then rounded to one decimal (Python `round(1 + avg/100*9, 1)`); if none
of the three is present, the rating is exactly 1.0. -/
theorem C8_amended_rating_rounded (scores : List (String × ℚ)) :
    (presentQualityDims scores = [] → _calculate_product_quality_rating scores = 1) ∧
      (presentQualityDims scores ≠ [] →
        _calculate_product_quality_rating scores =
          pyRound1 (1 +
            ((presentQualityDims scores).map (fun d => (alookup scores d).getD 0)).sum /
              ((presentQualityDims scores).length : ℚ) / 100 * 9)) := by
  rcases h1 : alookup scores "maintainability" with _ | v1 <;>
    rcases h2 : alookup scores "security" with _ | v2 <;>
      rcases h3 : alookup scores "scalability" with _ | v3 <;>
        constructor <;>
          simp [_calculate_product_quality_rating, presentQualityDims, qualityDims,
            h1, h2, h3] <;>
          ring_nf

/-- C8 witness: the amended rounding formula at a concrete score map. -/
theorem C8_witness :
    presentQualityDims [("maintainability", (33 : ℚ))] ≠ [] ∧
      _calculate_product_quality_rating [("maintainability", 33)] =
        pyRound1 (1 +
          ((presentQualityDims [("maintainability", (33 : ℚ))]).map
              (fun d => (alookup [("maintainability", (33 : ℚ))] d).getD 0)).sum /
            ((presentQualityDims [("maintainability", (33 : ℚ))]).length : ℚ) / 100 * 9) := by
  have hne : presentQualityDims [("maintainability", (33 : ℚ))] ≠ [] := by
    simp [presentQualityDims, qualityDims, alookup]
  exact ⟨hne, (C8_amended_rating_rounded [("maintainability", 33)]).2 hne⟩

/-! ## C4 -/

/-- The C4 scenario commit record: exactly 3 commits, two authored by
`x@co` and one by `y@co`, all with well-formed timestamps inside the
90-day window before the evaluation time `nowC4`. -/
def commitsC4 : Json :=
  .obj
    [("recent_commits",
      .arr
        [.obj [("author", .obj [("email", .str "x@co")]), ("date", .str "999000")],
         .obj [("author", .obj [("email", .str "x@co")]), ("date", .str "998000")],
         .obj [("author", .obj [("email", .str "y@co")]), ("date", .str "997000")]])]

/-- The C4 evaluation time. -/
def nowC4 : ℤ := 1000000

/-- An evidence root holding only `change/commits.json` with the C4
record. -/
def envC4 : Env :=
  { fs := fun p => if p = "change/commits.json" then some (.json commitsC4) else none
    frameworks := []
    has_typescript := false
    repoFactsName := ""
    metricsFiles := 0
    repoRootDirExists := fun _ => false }

theorem top1_shareC4 : _calculate_top1_share commitsC4 = some (200 / 3) := by
  simp [_calculate_top1_share, commitsC4, jsonTruthy, pyInStr, alookup, authorCountsAux,
    authorKey, bumpCount, scalarEq, maxCount]
  norm_num

theorem active_maintainersC4 : _calculate_active_maintainers nowC4 commitsC4 = some 2 := by
  simp [_calculate_active_maintainers, commitsC4, nowC4, jsonTruthy, pyInStr, alookup,
    activeAux, activeStep, parseDate, digitsVal, scalarEq]

/-- C4 counterexample: on the 3-commit record (two by `x@co`, one by
`y@co`, all inside the 90-day window) the resolver's computed top-1
author share is 200/3 = 66.666…, which is not exactly 66.67. -/
theorem C4_counterexample :
    _get_metric_value envC4 nowC4
        { path := some "change/commits.json", field := some "contributors.top1_share_pct" } =
      some (.num (200 / 3)) ∧
      ¬((200 / 3 : ℚ) = 6667 / 100) := by
  constructor
  · simp [_get_metric_value, envC4, fieldMapping, top1_shareC4]
  · norm_num

/-- C4 (amended): on that record the resolver returns a top-1 author share
of exactly 200/3 (= 66.666…, i.e. 66.67 only after rounding to two
decimals, which the resolver does not do) and an active-maintainers count
of exactly 2. -/
theorem C4_amended_exact_thirds :
    _get_metric_value envC4 nowC4
        { path := some "change/commits.json", field := some "contributors.top1_share_pct" } =
      some (.num (200 / 3)) ∧
      pyRound2 (200 / 3) = 6667 / 100 ∧
      _get_metric_value envC4 nowC4
          { path := some "change/commits.json",
            field := some "contributors.active_maintainers_90d" } =
        some (.num 2) := by
  refine ⟨?_, ?_, ?_⟩
  · simp [_get_metric_value, envC4, fieldMapping, top1_shareC4]
  · simp [pyRound2, roundHalfEven]
    norm_num [Int.fract]
  · simp [_get_metric_value, envC4, fieldMapping, active_maintainersC4]

/-! ## C1 -/

/-- Bound for a linear interpolation between two in-range scores with a
ratio in [0, 1]. -/
theorem interp_combo_bound {p t r : ℚ} (hp0 : 0 ≤ p) (hp1 : p ≤ 100) (ht0 : 0 ≤ t)
    (ht1 : t ≤ 100) (hr0 : 0 ≤ r) (hr1 : r ≤ 1) :
    0 ≤ p + (t - p) * r ∧ p + (t - p) * r ≤ 100 := by
  constructor <;> nlinarith

/-- Unfolding equation of `walkLte` on a nonempty list. -/
theorem walkLte_cons (interp : Bool) (v : ℚ) (prev : Option Threshold) (t : Threshold)
    (rest : List Threshold) :
    walkLte interp v prev (t :: rest) =
      if v ≤ lteKey t then
        some
          (if interp then
            match prev with
            | some p =>
                if lteKey t ≠ lteKey p then
                  p.score + (t.score - p.score) * ((v - lteKey p) / (lteKey t - lteKey p))
                else t.score
            | none => t.score
          else t.score)
      else walkLte interp v (some t) rest := rfl

/-- Unfolding equation of `walkGte` on a nonempty list. -/
theorem walkGte_cons (interp : Bool) (v : ℚ) (prev : Option Threshold) (t : Threshold)
    (rest : List Threshold) :
    walkGte interp v prev (t :: rest) =
      if v ≥ gteKey t then
        some
          (if interp then
            match prev with
            | some nxt =>
                if gteKey nxt ≠ gteKey t then
                  t.score + (nxt.score - t.score) * ((v - gteKey t) / (gteKey nxt - gteKey t))
                else t.score
            | none => t.score
          else t.score)
      else walkGte interp v (some t) rest := rfl

/-- Unfolding equation of `mixedBest` on a nonempty list. -/
theorem mixedBest_cons (v : ℚ) (t : Threshold) (rest : List Threshold)
    (best : Option Threshold) :
    mixedBest v (t :: rest) best =
      mixedBest v rest
        (if hasLte t && decide (v ≤ lteKey t) then
          match best with
          | none => some t
          | some b => if lteKey t < lteKey b then some t else some b
        else if hasGte t && decide (v ≥ gteKey t) then
          match best with
          | none => some t
          | some b => if gteKey t > gteKey b then some t else some b
        else best) := rfl

/-- Every value the ascending `lte` walk can return is in [0, 100] when
every threshold score is: the walk either returns a member's score, or an
interpolation between the previous member's score and the matched one's
with a ratio in (0, 1]. -/
theorem walkLte_bound (interp : Bool) (v : ℚ) :
    ∀ (l : List Threshold) (prev : Option Threshold),
      List.Sorted lteOrder l →
      (∀ t ∈ l, 0 ≤ t.score ∧ t.score ≤ 100) →
      (∀ p, prev = some p →
        (0 ≤ p.score ∧ p.score ≤ 100) ∧ lteKey p < v ∧ ∀ t ∈ l, lteKey p ≤ lteKey t) →
      ∀ r, walkLte interp v prev l = some r → 0 ≤ r ∧ r ≤ 100 := by
  intro l
  induction l with
  | nil => intro prev _ _ _ r hr; exact Option.noConfusion hr
  | cons t rest ih =>
      intro prev hsort hb hprev r hr
      rw [walkLte_cons] at hr
      rw [List.sorted_cons] at hsort
      have hbt := hb t (List.mem_cons_self t rest)
      by_cases hv : v ≤ lteKey t
      · rw [if_pos hv, Option.some_inj] at hr
        cases interp with
        | false =>
            have hr2 : t.score = r := hr
            rw [← hr2]; exact hbt
        | true =>
            rcases prev with _ | p
            · have hr2 : t.score = r := hr
              rw [← hr2]; exact hbt
            · have hr2 :
                  (if lteKey t ≠ lteKey p then
                    p.score + (t.score - p.score) * ((v - lteKey p) / (lteKey t - lteKey p))
                  else t.score) = r := hr
              obtain ⟨hpb, hpv, hple⟩ := hprev p rfl
              by_cases hne : lteKey t ≠ lteKey p
              · rw [if_pos hne] at hr2
                have hplt : lteKey p < lteKey t :=
                  lt_of_le_of_ne (hple t (List.mem_cons_self t rest)) (Ne.symm hne)
                have hd : (0 : ℚ) < lteKey t - lteKey p := by linarith
                have hr0 : 0 ≤ (v - lteKey p) / (lteKey t - lteKey p) :=
                  div_nonneg (by linarith) (le_of_lt hd)
                have hr1 : (v - lteKey p) / (lteKey t - lteKey p) ≤ 1 :=
                  (div_le_one hd).mpr (by linarith)
                rw [← hr2]
                exact interp_combo_bound hpb.1 hpb.2 hbt.1 hbt.2 hr0 hr1
              · rw [if_neg hne] at hr2
                rw [← hr2]; exact hbt
      · rw [if_neg hv] at hr
        refine ih (some t) hsort.2 (fun u hu => hb u (List.mem_cons_of_mem t hu)) ?_ r hr
        intro p hp
        rw [Option.some_inj] at hp
        subst hp
        exact ⟨hbt, lt_of_not_le hv, fun u hu => hsort.1 u hu⟩

/-- Every value the descending `gte` walk can return is in [0, 100] when
every threshold score is. -/
theorem walkGte_bound (interp : Bool) (v : ℚ) :
    ∀ (l : List Threshold) (prev : Option Threshold),
      List.Sorted gteOrder l →
      (∀ t ∈ l, 0 ≤ t.score ∧ t.score ≤ 100) →
      (∀ p, prev = some p →
        (0 ≤ p.score ∧ p.score ≤ 100) ∧ v < gteKey p ∧ ∀ t ∈ l, gteKey t ≤ gteKey p) →
      ∀ r, walkGte interp v prev l = some r → 0 ≤ r ∧ r ≤ 100 := by
  intro l
  induction l with
  | nil => intro prev _ _ _ r hr; exact Option.noConfusion hr
  | cons t rest ih =>
      intro prev hsort hb hprev r hr
      rw [walkGte_cons] at hr
      rw [List.sorted_cons] at hsort
      have hbt := hb t (List.mem_cons_self t rest)
      by_cases hv : v ≥ gteKey t
      · rw [if_pos hv, Option.some_inj] at hr
        cases interp with
        | false =>
            have hr2 : t.score = r := hr
            rw [← hr2]; exact hbt
        | true =>
            rcases prev with _ | p
            · have hr2 : t.score = r := hr
              rw [← hr2]; exact hbt
            · have hr2 :
                  (if gteKey p ≠ gteKey t then
                    t.score + (p.score - t.score) * ((v - gteKey t) / (gteKey p - gteKey t))
                  else t.score) = r := hr
              obtain ⟨hpb, hpv, hple⟩ := hprev p rfl
              by_cases hne : gteKey p ≠ gteKey t
              · rw [if_pos hne] at hr2
                have hplt : gteKey t < gteKey p :=
                  lt_of_le_of_ne (hple t (List.mem_cons_self t rest)) (Ne.symm hne)
                have hd : (0 : ℚ) < gteKey p - gteKey t := by linarith
                have hr0 : 0 ≤ (v - gteKey t) / (gteKey p - gteKey t) :=
                  div_nonneg (by linarith) (le_of_lt hd)
                have hr1 : (v - gteKey t) / (gteKey p - gteKey t) ≤ 1 :=
                  (div_le_one hd).mpr (by linarith)
                rw [← hr2]
                exact interp_combo_bound hbt.1 hbt.2 hpb.1 hpb.2 hr0 hr1
              · rw [if_neg hne] at hr2
                rw [← hr2]; exact hbt
      · rw [if_neg hv] at hr
        refine ih (some t) hsort.2 (fun u hu => hb u (List.mem_cons_of_mem t hu)) ?_ r hr
        intro p hp
        rw [Option.some_inj] at hp
        subst hp
        exact ⟨hbt, lt_of_not_le hv, fun u hu => hsort.1 u hu⟩

/-- The mixed-threshold search only ever selects a member of the list (or
keeps the initial candidate). -/
theorem mixedBest_mem (v : ℚ) :
    ∀ (l : List Threshold) (best : Option Threshold) (b : Threshold),
      mixedBest v l best = some b → b ∈ l ∨ best = some b := by
  intro l
  induction l with
  | nil => intro best b h; exact Or.inr h
  | cons t rest ih =>
      intro best b h
      rw [mixedBest_cons] at h
      rcases ih _ b h with hmem | hbest2
      · exact Or.inl (List.mem_cons_of_mem t hmem)
      ·
        by_cases h1 : hasLte t && decide (v ≤ lteKey t)
        · rw [if_pos h1] at hbest2
          rcases best with _ | b0
          · rw [Option.some_inj] at hbest2; exact Or.inl (hbest2 ▸ List.mem_cons_self t rest)
          · have hbest3 : (if lteKey t < lteKey b0 then some t else some b0) = some b := hbest2
            by_cases h2 : lteKey t < lteKey b0
            · rw [if_pos h2, Option.some_inj] at hbest3
              exact Or.inl (hbest3 ▸ List.mem_cons_self t rest)
            · rw [if_neg h2] at hbest3; exact Or.inr hbest3
        · rw [if_neg h1] at hbest2
          by_cases h2 : hasGte t && decide (v ≥ gteKey t)
          · rw [if_pos h2] at hbest2
            rcases best with _ | b0
            · rw [Option.some_inj] at hbest2
              exact Or.inl (hbest2 ▸ List.mem_cons_self t rest)
            · have hbest3 : (if gteKey t > gteKey b0 then some t else some b0) = some b :=
                hbest2
              by_cases h3 : gteKey t > gteKey b0
              · rw [if_pos h3, Option.some_inj] at hbest3
                exact Or.inl (hbest3 ▸ List.mem_cons_self t rest)
              · rw [if_neg h3] at hbest3; exact Or.inr hbest3
          · rw [if_neg h2] at hbest2; exact Or.inr hbest2

/-- Threshold normalization stays in [0, 100] whenever every configured
threshold score is in [0, 100]. -/
theorem normalize_thresholds_bound (value : Json) (n : NormSpec)
    (hb : ∀ t ∈ n.thresholds, 0 ≤ t.score ∧ t.score ≤ 100) :
    0 ≤ _normalize_thresholds value n ∧ _normalize_thresholds value n ≤ 100 := by
  have hlteb : ∀ t ∈ List.insertionSort lteOrder (n.thresholds.filter hasLte),
      0 ≤ t.score ∧ t.score ≤ 100 := by
    intro t ht
    exact hb t (List.mem_of_mem_filter
      ((List.perm_insertionSort lteOrder (n.thresholds.filter hasLte)).mem_iff.mp ht))
  have hgteb : ∀ t ∈ List.insertionSort gteOrder (n.thresholds.filter hasGte),
      0 ≤ t.score ∧ t.score ≤ 100 := by
    intro t ht
    exact hb t (List.mem_of_mem_filter
      ((List.perm_insertionSort gteOrder (n.thresholds.filter hasGte)).mem_iff.mp ht))
  unfold _normalize_thresholds
  split
  · norm_num
  · split
    · norm_num
    · rename_i v hfv
      split
      · split
        · rename_i s hw
          exact walkLte_bound n.interpolate_between_points v _ none
            (List.sorted_insertionSort lteOrder _) hlteb
            (fun p hp => Option.noConfusion hp) s hw
        · rename_i hw
          split
          · rename_i g hg
            exact hlteb g (mem_of_getLast? _ g hg)
          · norm_num
      · split
        · split
          · rename_i s hw
            exact walkGte_bound n.interpolate_between_points v _ none
              (List.sorted_insertionSort gteOrder _) hgteb
              (fun p hp => Option.noConfusion hp) s hw
          · rename_i hw
            split
            · rename_i g hg
              exact hgteb g (mem_of_getLast? _ g hg)
            · norm_num
        · split
          · rename_i b hm
            rcases mixedBest_mem v n.thresholds none b hm with hmem | hfalse
            · exact hb b hmem
            · cases hfalse
          · norm_num

/-- Every score a `NormalizationSpec` configures lies in [0, 100]:
threshold scores, the optional boolean scores, and the mapping values. -/
def specScoresIn0100 (n : NormSpec) : Prop :=
  (∀ t ∈ n.thresholds, 0 ≤ t.score ∧ t.score ≤ 100) ∧
    (∀ q : ℚ, n.true_score = some q → 0 ≤ q ∧ q ≤ 100) ∧
    (∀ q : ℚ, n.false_score = some q → 0 ≤ q ∧ q ≤ 100) ∧
    (∀ p ∈ n.mapping, 0 ≤ p.2 ∧ p.2 ≤ 100)

/-- C1 (amended): `normalize(None, spec) = 0.0`, and the result lies in
[0, 100] whenever every score the spec configures lies in [0, 100]; but
no clamping is applied — a configured score outside [0, 100] is returned
as-is (see the counterexample). -/
theorem C1_amended_range_without_clamping (v : Option Json) (n : NormSpec)
    (hspec : specScoresIn0100 n) :
    _normalize_value none n = 0 ∧
      0 ≤ _normalize_value v n ∧ _normalize_value v n ≤ 100 := by
  obtain ⟨hth, htrue, hfalse, hmap⟩ := hspec
  refine ⟨rfl, ?_⟩
  rcases v with _ | v
  · simp [_normalize_value]
  · have hbool : 0 ≤ _normalize_boolean v n ∧ _normalize_boolean v n ≤ 100 := by
      unfold _normalize_boolean
      by_cases hj : jsonTruthy v
      · rw [if_pos hj]
        cases hts : n.true_score with
        | none => norm_num
        | some q => simpa using htrue q hts
      · rw [if_neg hj]
        cases hfs : n.false_score with
        | none => norm_num
        | some q => simpa using hfalse q hfs
    have hmapb : 0 ≤ _normalize_mapping v n ∧ _normalize_mapping v n ≤ 100 := by
      unfold _normalize_mapping
      cases hl : alookup n.mapping (pyStr v) with
      | none => norm_num
      | some q => simpa using hmap _ (alookup_mem _ _ _ hl)
    cases hty : n.ntype with
    | thresholds => simpa [_normalize_value, hty] using normalize_thresholds_bound v n hth
    | boolean => simpa [_normalize_value, hty] using hbool
    | mapping => simpa [_normalize_value, hty] using hmapb
    | other => simp [_normalize_value, hty]

/-- The boolean spec of the C1 counterexample: a configured `true_score`
of 150, outside [0, 100]. -/
def normBool150 : NormSpec :=
  { ntype := .boolean
    thresholds := []
    direction := "higher_is_better"
    interpolate_between_points := false
    true_score := some 150
    false_score := none
    mapping := [] }

/-- C1 counterexample: the normalizer does not clamp — with a configured
`true_score` of 150 the returned score is 150, not within [0, 100]. -/
theorem C1_counterexample :
    _normalize_value (some (.bool true)) normBool150 = 150 ∧
      ¬(_normalize_value (some (.bool true)) normBool150 ≤ 100) := by
  have h : _normalize_value (some (.bool true)) normBool150 = 150 := by
    simp [_normalize_value, _normalize_boolean, normBool150, jsonTruthy]
  refine ⟨h, ?_⟩
  rw [h]
  norm_num

/-- An in-range boolean spec for the C1 witness. -/
def normBool80 : NormSpec :=
  { ntype := .boolean
    thresholds := []
    direction := "higher_is_better"
    interpolate_between_points := false
    true_score := some 80
    false_score := none
    mapping := [] }

/-- C1 witness: the amended range statement at a concrete in-range boolean
spec. -/
theorem C1_witness :
    _normalize_value none normBool80 = 0 ∧
      0 ≤ _normalize_value (some (.bool true)) normBool80 ∧
        _normalize_value (some (.bool true)) normBool80 ≤ 100 :=
  C1_amended_range_without_clamping (some (.bool true)) normBool80
    ⟨by simp [normBool80], by intro q hq; simp [normBool80] at hq; simp [← hq]; norm_num,
      by intro q hq; simp [normBool80] at hq, by simp [normBool80]⟩

/-! ## C6 -/

/-- A nonempty list has a last element. -/
theorem getLast?_ne_none {α : Type} :
    ∀ (l : List α), l ≠ [] → ∃ g, l.getLast? = some g := by
  intro l
  induction l with
  | nil => intro h; exact absurd rfl h
  | cons a rest ih =>
      intro _
      rcases rest with _ | ⟨b, r2⟩
      · exact ⟨a, rfl⟩
      · obtain ⟨g, hg⟩ := ih (by simp)
        exact ⟨g, by rw [List.getLast?_cons_cons]; exact hg⟩

/-- In an ascending-sorted threshold list, the last element has the
largest `lte` bound. -/
theorem sorted_lte_getLast_max :
    ∀ (l : List Threshold), List.Sorted lteOrder l →
      ∀ g, l.getLast? = some g → ∀ t ∈ l, lteKey t ≤ lteKey g := by
  intro l
  induction l with
  | nil => intro _ g hg; exact absurd hg (by simp)
  | cons a rest ih =>
      intro hsort g hg t ht
      rw [List.sorted_cons] at hsort
      rcases rest with _ | ⟨b, rest2⟩
      · have hga : a = g := by simpa using hg
        have hta : t = a := by simpa using ht
        rw [← hga, hta]
      · rw [List.getLast?_cons_cons] at hg
        rcases List.mem_cons.mp ht with hta | htm
        · rw [hta]
          exact hsort.1 g (mem_of_getLast? _ g hg)
        · exact ih hsort.2 g hg t htm

/-- The ascending `lte` walk finds nothing when the value exceeds every
bound. -/
theorem walkLte_none (interp : Bool) (v : ℚ) :
    ∀ (l : List Threshold) (prev : Option Threshold),
      (∀ t ∈ l, ¬(v ≤ lteKey t)) → walkLte interp v prev l = none := by
  intro l
  induction l with
  | nil => intro prev _; rfl
  | cons t rest ih =>
      intro prev h
      rw [walkLte_cons, if_neg (h t (List.mem_cons_self t rest))]
      exact ih (some t) (fun u hu => h u (List.mem_cons_of_mem t hu))

/-- C6: for a `lower_is_better` threshold ladder, a numeric value strictly
above every `lte` bound normalizes to the score of a threshold carrying
the highest (largest) bound — not to zero. -/
theorem C6_value_above_all_bounds_gets_last_score (n : NormSpec) (v : ℚ)
    (hty : n.ntype = .thresholds) (hdir : n.direction = "lower_is_better")
    (hne : n.thresholds.filter hasLte ≠ [])
    (habove : ∀ t ∈ n.thresholds, hasLte t = true → lteKey t < v) :
    ∃ t ∈ n.thresholds, hasLte t = true ∧
      (∀ u ∈ n.thresholds, hasLte u = true → lteKey u ≤ lteKey t) ∧
      _normalize_value (some (.num v)) n = t.score := by
  have hthsne : n.thresholds ≠ [] := by
    intro h0
    apply hne
    rw [h0]
    rfl
  have hsortne : List.insertionSort lteOrder (n.thresholds.filter hasLte) ≠ [] := by
    intro h0
    apply hne
    have hlen := List.Perm.length_eq (List.perm_insertionSort lteOrder
      (n.thresholds.filter hasLte))
    rw [h0] at hlen
    exact List.length_eq_zero.mp hlen.symm
  obtain ⟨g, hg⟩ := getLast?_ne_none _ hsortne
  have hgfil : g ∈ n.thresholds.filter hasLte :=
    (List.perm_insertionSort lteOrder (n.thresholds.filter hasLte)).mem_iff.mp
      (mem_of_getLast? _ g hg)
  have hgmem := List.mem_filter.mp hgfil
  have hwalk : walkLte n.interpolate_between_points v none
      (List.insertionSort lteOrder (n.thresholds.filter hasLte)) = none := by
    apply walkLte_none
    intro u hu
    have hum := List.mem_filter.mp
      ((List.perm_insertionSort lteOrder (n.thresholds.filter hasLte)).mem_iff.mp hu)
    exact not_le.mpr (habove u hum.1 hum.2)
  have hnv : _normalize_value (some (.num v)) n = _normalize_thresholds (.num v) n := by
    simp [_normalize_value, hty]
  have heval : _normalize_value (some (.num v)) n = g.score := by
    rw [hnv]
    unfold _normalize_thresholds
    rw [if_neg hthsne]
    simp only [toFloatValue]
    rw [if_pos (And.intro hne hdir), hwalk, hg]
  refine ⟨g, hgmem.1, hgmem.2, ?_, heval⟩
  intro u hu hul
  exact sorted_lte_getLast_max _ (List.sorted_insertionSort lteOrder _) g hg u
    ((List.perm_insertionSort lteOrder (n.thresholds.filter hasLte)).mem_iff.mpr
      (List.mem_filter.mpr ⟨hu, hul⟩))

/-- The ladder of the C6 witness: two `lte` thresholds for a
`lower_is_better` metric. -/
def normC6 : NormSpec :=
  { ntype := .thresholds
    thresholds := [⟨some 5, none, 80⟩, ⟨some 10, none, 40⟩]
    direction := "lower_is_better"
    interpolate_between_points := false
    true_score := none
    false_score := none
    mapping := [] }

/-- C6 witness: the value 12 exceeds both bounds (5 and 10) and receives
the score of a maximal-bound threshold. -/
theorem C6_witness :
    ∃ t ∈ normC6.thresholds, hasLte t = true ∧
      (∀ u ∈ normC6.thresholds, hasLte u = true → lteKey u ≤ lteKey t) ∧
      _normalize_value (some (.num 12)) normC6 = t.score :=
  C6_value_above_all_bounds_gets_last_score normC6 12 rfl rfl (by decide)
    (by decide)

/-! ## C5 -/

/-- Unfolding of `find?` for the gte-match predicate. -/
theorem find?_gte_cons (v : ℚ) (t : Threshold) (rest : List Threshold) :
    (t :: rest).find? (fun u => decide (v ≥ gteKey u)) =
      if v ≥ gteKey t then some t else rest.find? (fun u => decide (v ≥ gteKey u)) := by
  by_cases hv : v ≥ gteKey t
  · rw [if_pos hv]
    exact List.find?_cons_of_pos _ (decide_eq_true hv)
  · rw [if_neg hv]
    exact List.find?_cons_of_neg _ (by simpa using hv)

/-- Without interpolation, the descending `gte` walk is exactly "score of
the first matching threshold" and ignores the carried previous
threshold. -/
theorem walkGte_no_interp (v : ℚ) :
    ∀ (l : List Threshold) (prev : Option Threshold),
      walkGte false v prev l =
        (l.find? (fun t => decide (v ≥ gteKey t))).map Threshold.score := by
  intro l
  induction l with
  | nil => intro prev; rfl
  | cons t rest ih =>
      intro prev
      rw [walkGte_cons, find?_gte_cons]
      by_cases hv : v ≥ gteKey t
      · rw [if_pos hv, if_pos hv]
        rfl
      · rw [if_neg hv, if_neg hv, ih (some t)]

/-- The score an uninterpolated `gte` ladder assigns: the first (largest)
satisfied bound's score, else the last (smallest bound) threshold's
score, else 0. Proof-side abbreviation for the `higher_is_better`
branch. -/
def gteLadderScore (l : List Threshold) (v : ℚ) : ℚ :=
  match l.find? (fun t => decide (v ≥ gteKey t)) with
  | some t => t.score
  | none =>
      match l.getLast? with
      | some g => g.score
      | none => 0

/-- The ladder score of a nonempty ladder is some member's score. -/
theorem gteLadderScore_mem (v : ℚ) :
    ∀ (l : List Threshold), l ≠ [] → ∃ t ∈ l, gteLadderScore l v = t.score := by
  intro l hne
  unfold gteLadderScore
  cases hf : l.find? (fun t => decide (v ≥ gteKey t)) with
  | some t => exact ⟨t, List.mem_of_find?_eq_some hf, rfl⟩
  | none =>
      obtain ⟨g, hg⟩ := getLast?_ne_none l hne
      rw [hg]
      exact ⟨g, mem_of_getLast? l g hg, rfl⟩

/-- In a descending-sorted threshold list, the last element has the
smallest `gte` bound. (Counterpart of `sorted_lte_getLast_max`.) -/
theorem sorted_gte_getLast_min :
    ∀ (l : List Threshold), List.Sorted gteOrder l →
      ∀ g, l.getLast? = some g → ∀ t ∈ l, gteKey g ≤ gteKey t := by
  intro l
  induction l with
  | nil => intro _ g hg; exact absurd hg (by simp)
  | cons a rest ih =>
      intro hsort g hg t ht
      rw [List.sorted_cons] at hsort
      rcases rest with _ | ⟨b, rest2⟩
      · have hga : a = g := by simpa using hg
        have hta : t = a := by simpa using ht
        rw [← hga, hta]
      · rw [List.getLast?_cons_cons] at hg
        rcases List.mem_cons.mp ht with hta | htm
        · rw [hta]
          exact hsort.1 g (mem_of_getLast? _ g hg)
        · exact ih hsort.2 g hg t htm

/-- On a descending-sorted ladder whose scores are monotone in their
bounds, the uninterpolated ladder score is monotone in the value. -/
theorem gteLadderScore_mono (x y : ℚ) (hxy : y ≤ x) :
    ∀ (l : List Threshold), List.Sorted gteOrder l →
      (∀ t ∈ l, ∀ u ∈ l, gteKey t ≤ gteKey u → t.score ≤ u.score) →
      gteLadderScore l y ≤ gteLadderScore l x := by
  intro l
  induction l with
  | nil => intro _ _; exact le_refl _
  | cons t rest ih =>
      intro hsort hmono
      rw [List.sorted_cons] at hsort
      by_cases hx : x ≥ gteKey t
      · have hfx : gteLadderScore (t :: rest) x = t.score := by
          unfold gteLadderScore
          rw [find?_gte_cons, if_pos hx]
        by_cases hy : y ≥ gteKey t
        · have hfy : gteLadderScore (t :: rest) y = t.score := by
            unfold gteLadderScore
            rw [find?_gte_cons, if_pos hy]
          rw [hfx, hfy]
        · obtain ⟨w, hw, hws⟩ := gteLadderScore_mem y (t :: rest) (by simp)
          rw [hfx, hws]
          have hkey : gteKey w ≤ gteKey t := by
            rcases List.mem_cons.mp hw with h1 | h2
            · rw [h1]
            · exact hsort.1 w h2
          exact hmono w hw t (List.mem_cons_self t rest) hkey
      · have hy : ¬y ≥ gteKey t := fun h => hx (le_trans h hxy)
        rcases rest with _ | ⟨b, rest2⟩
        · have h1 : ∀ z : ℚ, ¬z ≥ gteKey t → gteLadderScore [t] z = t.score := by
            intro z hz
            unfold gteLadderScore
            rw [find?_gte_cons, if_neg hz]
            rfl
          rw [h1 x hx, h1 y hy]
        · have hstep : ∀ z : ℚ, ¬z ≥ gteKey t →
              gteLadderScore (t :: b :: rest2) z = gteLadderScore (b :: rest2) z := by
            intro z hz
            unfold gteLadderScore
            rw [find?_gte_cons, if_neg hz, List.getLast?_cons_cons]
          rw [hstep x hx, hstep y hy]
          exact ih hsort.2
            (fun a ha u hu => hmono a (List.mem_cons_of_mem t ha) u (List.mem_cons_of_mem t hu))

/-- C5 (amended): an uninterpolated `higher_is_better` `gte` ladder is
monotone in the value provided its scores are monotone in their bounds
(a larger bound never carries a smaller score); without that proviso the
code is not monotone (see the counterexample). -/
theorem C5_amended_monotone_for_monotone_ladder (n : NormSpec)
    (hty : n.ntype = .thresholds) (hdir : n.direction = "higher_is_better")
    (hni : n.interpolate_between_points = false)
    (hne : n.thresholds.filter hasGte ≠ [])
    (hmono : ∀ t ∈ n.thresholds.filter hasGte, ∀ u ∈ n.thresholds.filter hasGte,
      gteKey t ≤ gteKey u → t.score ≤ u.score)
    (x y : ℚ) (hxy : y ≤ x) :
    _normalize_value (some (.num y)) n ≤ _normalize_value (some (.num x)) n := by
  have hthsne : n.thresholds ≠ [] := by
    intro h0
    apply hne
    rw [h0]
    rfl
  have hlb : ¬(n.thresholds.filter hasLte ≠ [] ∧ n.direction = "lower_is_better") := by
    rintro ⟨_, hcontra⟩
    rw [hdir] at hcontra
    exact absurd hcontra (by decide)
  have heval : ∀ z : ℚ, _normalize_value (some (.num z)) n =
      gteLadderScore (List.insertionSort gteOrder (n.thresholds.filter hasGte)) z := by
    intro z
    have hnv : _normalize_value (some (.num z)) n = _normalize_thresholds (.num z) n := by
      simp [_normalize_value, hty]
    rw [hnv]
    unfold _normalize_thresholds
    rw [if_neg hthsne]
    simp only [toFloatValue]
    rw [if_neg hlb, if_pos (And.intro hne hdir), hni, walkGte_no_interp]
    unfold gteLadderScore
    cases hf : (List.insertionSort gteOrder (n.thresholds.filter hasGte)).find?
        (fun t => decide (z ≥ gteKey t)) with
    | none => rfl
    | some t => rfl
  rw [heval x, heval y]
  refine gteLadderScore_mono x y hxy _ (List.sorted_insertionSort gteOrder _) ?_
  intro t ht u hu
  exact hmono t ((List.perm_insertionSort gteOrder _).mem_iff.mp ht)
    u ((List.perm_insertionSort gteOrder _).mem_iff.mp hu)

/-- The decreasing-score ladder of the C5 counterexample. -/
def normC5 : NormSpec :=
  { ntype := .thresholds
    thresholds := [⟨none, some 10, 20⟩, ⟨none, some 0, 80⟩]
    direction := "higher_is_better"
    interpolate_between_points := false
    true_score := none
    false_score := none
    mapping := [] }

/-- C5 counterexample: nothing in the code orders a ladder's scores by its
bounds, so normalize is not monotone for every uninterpolated
`higher_is_better` spec: with thresholds {gte 10 → 20, gte 0 → 80},
normalize(10) = 20 < normalize(5) = 80 although 10 ≥ 5 and both values
lie in the covered domain. -/
theorem C5_counterexample :
    (10 : ℚ) ≥ 5 ∧
      _normalize_value (some (.num 10)) normC5 = 20 ∧
      _normalize_value (some (.num 5)) normC5 = 80 ∧
      ¬(_normalize_value (some (.num 10)) normC5 ≥
          _normalize_value (some (.num 5)) normC5) := by
  refine ⟨by norm_num, ?_, ?_, ?_⟩ <;> decide

/-- The increasing-score ladder of the C5 witness. -/
def normC5mono : NormSpec :=
  { ntype := .thresholds
    thresholds := [⟨none, some 0, 20⟩, ⟨none, some 10, 80⟩]
    direction := "higher_is_better"
    interpolate_between_points := false
    true_score := none
    false_score := none
    mapping := [] }

/-- C5 witness: the amended monotonicity at a concrete score-monotone
ladder and value pair. -/
theorem C5_witness :
    _normalize_value (some (.num 3)) normC5mono ≤ _normalize_value (some (.num 12)) normC5mono :=
  C5_amended_monotone_for_monotone_ladder normC5mono rfl rfl rfl (by decide) (by decide)
    12 3 (by norm_num)

end RepoAnalyzer
